import Mathlib

/-!
Verification of the response-normalization core of the ticket-prediction
dashboard (`src/app.py`): the payload normalizer `parse_predictions`, the
summary statistics computed in `plot_predictions`, and the quick-range
preset mapper `map_quick_to_dates`.

JSON values are embedded as an inductive `Json`; Python dicts keep their
insertion order as association lists.  Python exceptions that the source
lets escape are modelled with `Except PyErr`; a normal return of
`parse_predictions` is the pair `(df, err)` from the source, with Python
`None` rendered as `Json.null`.  Machine floats sent by the upstream API
are modelled as rationals; `pyRound` is round-half-to-even, the rounding
used by Python's `round` and by pandas `Series.round`.
-/

namespace TicketsUI

/-- An untyped JSON value, the shape of an upstream payload. -/
inductive Json where
  | null : Json
  | bool (b : Bool) : Json
  | num (q : ℚ) : Json
  | str (s : String) : Json
  | arr (xs : List Json) : Json
  | obj (kvs : List (String × Json)) : Json
deriving Repr

/-- A Python exception escaping uncaught (only its kind is tracked). -/
inductive PyErr where
  | typeError : PyErr
  | valueError : PyErr
  | keyError : PyErr
deriving DecidableEq, Repr

/-- Python truthiness of a JSON value (`not payload` negates this). -/
def Json.truthy : Json → Bool
  | .null => false
  | .bool b => b
  | .num q => !(q == 0)
  | .str s => !(s == "")
  | .arr xs => !xs.isEmpty
  | .obj kvs => !kvs.isEmpty

/-- Python test `isinstance(payload, dict)`. -/
def Json.isObj : Json → Bool
  | .obj _ => true
  | _ => false

/-- Key membership in a dict, `k in kvs`. -/
def hasKey (kvs : List (String × Json)) (k : String) : Bool :=
  kvs.any (fun p => p.1 == k)

/-- Dict access `kvs.get(k)`: the stored value, or Python `None` when the
key is absent. -/
def getKey (kvs : List (String × Json)) (k : String) : Json :=
  match kvs.find? (fun p => p.1 == k) with
  | some p => p.2
  | none => .null

/-- The Python `in` operator applied to a string key: key membership for
dicts, element membership for lists, substring test for strings, and an
uncaught `TypeError` for the non-container values. -/
def jsonContains (x : Json) (k : String) : Except PyErr Bool :=
  match x with
  | .obj kvs => .ok (hasKey kvs k)
  | .arr xs => .ok (xs.any (fun j => match j with | .str s => s == k | _ => false))
  | .str s => .ok (decide (k.data <:+: s.data))
  | _ => .error .typeError

/-- Subscript `x[k]` with a string key: dict lookup (`KeyError` when
absent), `TypeError` on any other value. -/
def getItem (x : Json) (k : String) : Except PyErr Json :=
  match x with
  | .obj kvs => if hasKey kvs k then .ok (getKey kvs k) else .error .keyError
  | _ => .error .typeError

/-- Python test `isinstance(x, (int, float))`; `bool` is a subclass of `int`. -/
def isNumLike : Json → Bool
  | .num _ => true
  | .bool _ => true
  | _ => false

/-- Is the value Python `None` (pandas treats it as missing)? -/
def Json.isNull : Json → Bool
  | .null => true
  | _ => false

/-! ### Calendar dates

`datetime.date` values, proleptic Gregorian, as in Python's `datetime`. -/

/-- A calendar date (year, month 1–12, day 1–31). -/
structure Date where
  year : ℕ
  month : ℕ
  day : ℕ
deriving DecidableEq, Repr

/-- Gregorian leap year. -/
def isLeap (y : ℕ) : Bool :=
  y % 4 == 0 && (y % 100 != 0 || y % 400 == 0)

/-- Number of days in month `m` of year `y`. -/
def monthLength (y m : ℕ) : ℕ :=
  if m == 2 then (if isLeap y then 29 else 28)
  else if m == 4 || m == 6 || m == 9 || m == 11 then 30
  else 31

/-- Validity of a calendar date. -/
def Date.valid (dt : Date) : Bool :=
  1 ≤ dt.year && 1 ≤ dt.month && dt.month ≤ 12 &&
    1 ≤ dt.day && dt.day ≤ monthLength dt.year dt.month

/-- The day after `dt`. -/
def nextDay (dt : Date) : Date :=
  if dt.day < monthLength dt.year dt.month then ⟨dt.year, dt.month, dt.day + 1⟩
  else if dt.month < 12 then ⟨dt.year, dt.month + 1, 1⟩
  else ⟨dt.year + 1, 1, 1⟩

/-- Python expression `dt + timedelta(days=n)`. -/
def addDays (dt : Date) : ℕ → Date
  | 0 => dt
  | n + 1 => addDays (nextDay dt) n

/-- The day before `dt`. -/
def prevDay (dt : Date) : Date :=
  if 1 < dt.day then ⟨dt.year, dt.month, dt.day - 1⟩
  else if 1 < dt.month then ⟨dt.year, dt.month - 1, monthLength dt.year (dt.month - 1)⟩
  else ⟨dt.year - 1, 12, 31⟩

/-- Days of year `y` before the first day of month `m`. -/
def daysBeforeMonth (y m : ℕ) : ℕ :=
  ((List.range (m - 1)).map (fun i => monthLength y (i + 1))).sum

/-- Python `date.toordinal()`: day number with 0001-01-01 ↦ 1. -/
def toOrdinal (dt : Date) : ℕ :=
  365 * (dt.year - 1) + (dt.year - 1) / 4 - (dt.year - 1) / 100 + (dt.year - 1) / 400
    + daysBeforeMonth dt.year dt.month + dt.day

/-- Python `date.weekday()`: Monday = 0 … Sunday = 6. -/
def weekday (dt : Date) : ℕ :=
  (toOrdinal dt + 6) % 7

/-- Date comparison, lexicographic on (year, month, day): the order pandas
uses once the column is coerced to datetimes. -/
def Date.leB (a b : Date) : Bool :=
  decide (a.year < b.year ∨ (a.year = b.year ∧
    (a.month < b.month ∨ (a.month = b.month ∧ a.day ≤ b.day))))

/-- Order on date cells; `none` is `NaT`, which pandas sorts last. -/
def dleB : Option Date → Option Date → Bool
  | some a, some b => Date.leB a b
  | some _, none => true
  | none, some _ => false
  | none, none => true

/-- Split a character list into the groups separated by dashes. -/
def splitDash : List Char → List (List Char)
  | [] => [[]]
  | c :: cs =>
    match splitDash cs with
    | [] => [[c]]
    | g :: gs => if c = '-' then [] :: g :: gs else (c :: g) :: gs

/-- Parse a non-empty all-digit group as a decimal number. -/
def digitsToNat? (cs : List Char) : Option ℕ :=
  if !cs.isEmpty && cs.all Char.isDigit then
    some (cs.foldl (fun n c => 10 * n + (c.toNat - 48)) 0)
  else none

/-- Model of `pd.to_datetime` on one ISO `YYYY-MM-DD` string: the shape
the upstream API documents (§6 of the spec, query parameters in
`YYYY-MM-DD`). -/
def parseDate (s : String) : Option Date :=
  match splitDash s.data with
  | [ys, ms, ds] =>
    match digitsToNat? ys, digitsToNat? ms, digitsToNat? ds with
    | some y, some m, some d =>
      if (Date.mk y m d).valid then some ⟨y, m, d⟩ else none
    | _, _, _ => none
  | _ => none

/-- Python/NumPy `round`: round half to even, to an integer.  Written on
the numerator and denominator of the rational: `f` is the floor of `q`
and `r2` the numerator of `2 * (q - f)` over the denominator, so the
fractional part is below, above or exactly one half according as `r2`
compares with the denominator. -/
def pyRound (q : ℚ) : ℤ :=
  let f : ℤ := Int.fdiv q.num q.den
  let r2 : ℤ := 2 * (q.num - f * q.den)
  if r2 < (q.den : ℤ) then f
  else if (q.den : ℤ) < r2 then f + 1
  else if f % 2 = 0 then f else f + 1

/-- Model of `pd.to_datetime` on one cell of an object column: ISO strings parse or
raise, `None` becomes `NaT`, other values raise. -/
def dateCell : Json → Except PyErr (Option Date)
  | .str s =>
    match parseDate s with
    | some d => .ok (some d)
    | none => .error .valueError
  | .null => .ok none
  | _ => .error .typeError

/-- Model of `pd.to_datetime` on a dict key (always a string in JSON). -/
def strToDate (s : String) : Except PyErr Date :=
  match parseDate s with
  | some d => .ok d
  | none => .error .valueError

/-- Model of `Series.round().astype(int)` on one cell: numbers round half-to-even,
booleans cast to 0/1, anything else (including a missing value, whose NaN
cannot be cast to int) raises. -/
def roundCell : Json → Except PyErr ℤ
  | .num q => .ok (pyRound q)
  | .bool b => .ok (if b then 1 else 0)
  | _ => .error .typeError

/-- Total variant of `roundCell`, used only under the
`all(isinstance(x, (int, float)))` guard where it cannot miss. -/
def jsonRound0 : Json → ℤ
  | .num q => pyRound q
  | .bool b => if b then 1 else 0
  | _ => 0

/-! ### The normalizer `parse_predictions` (src/app.py lines 58–115)

The normalized table is the pair returned by the Python function: an
optional DataFrame together with the error value (`Json.null` standing
for Python `None`).  A DataFrame is one of three shapes, depending on how
far the bulk coercion of app.py lines 101–105 got before its
`try/except` swallowed a failure: both columns coerced, only the date
column coerced, or neither. -/

/-- The DataFrame handed to the presenter. -/
inductive Df where
  | typed (rows : List (Option Date × ℤ)) : Df
  | halfTyped (rows : List (Option Date × Json)) : Df
  | raw (rows : List (Json × Json)) : Df
deriving Repr

/-- Sorting `df.sort_values('date')` on a fully coerced frame: ascending by date,
`NaT` last. -/
def sortRows (rows : List (Option Date × ℤ)) : List (Option Date × ℤ) :=
  rows.mergeSort (fun a b => dleB a.1 b.1)

/-- Sorting `df.sort_values('date')` when only the date column was coerced. -/
def sortHalf (rows : List (Option Date × Json)) : List (Option Date × Json) :=
  rows.mergeSort (fun a b => dleB a.1 b.1)

/-- Guard `not payload or (isinstance(payload, dict) and 'error' in payload)`,
second disjunct (line 59). -/
def Json.hasErrorKey : Json → Bool
  | .obj kvs => hasKey kvs "error"
  | _ => false

/-- Expression `payload.get('error') if isinstance(payload, dict) else "No data"`
(line 60). -/
def Json.errValue : Json → Json
  | .obj kvs => getKey kvs "error"
  | p => if p.isObj then .null else .str "No data"

/-- Locate the candidate collection (lines 62–68): unwrap
`payload['data']['predictions']`, else `payload['predictions']`, else the
payload itself.  The membership test `'predictions' in payload['data']`
can raise when `payload['data']` is not a container. -/
def resolvePreds (payload : Json) : Except PyErr Json :=
  match payload with
  | .obj kvs =>
    if hasKey kvs "data" then
      match jsonContains (getKey kvs "data") "predictions" with
      | .error e => .error e
      | .ok true => getItem (getKey kvs "data") "predictions"
      | .ok false =>
        if hasKey kvs "predictions" then .ok (getKey kvs "predictions") else .ok payload
    else
      if hasKey kvs "predictions" then .ok (getKey kvs "predictions") else .ok payload
  | p => .ok p

/-- The mapping case (lines 70–74): one row per dict entry, keys coerced
to dates, values rounded to ints — either coercion raising uncaught —
then sorted ascending by date. -/
def mappingBranch (kvs : List (String × Json)) : Except PyErr (Option Df × Json) :=
  match kvs.mapM (fun p => strToDate p.1) with
  | .error e => .error e
  | .ok dates =>
    match kvs.mapM (fun p => roundCell p.2) with
    | .error e => .error e
    | .ok vals => .ok (some (.typed (sortRows ((dates.map some).zip vals))), .null)

/-- Alias sets for the date role (line 83). -/
def dateAliases : List String := ["date", "ds", "day"]

/-- Alias sets for the value role (line 85). -/
def valueAliases : List String := ["value", "y", "tickets", "count", "volume"]

/-- Python `k.lower()` (character-wise, the case of JSON field names). -/
def lowerStr (s : String) : String := ⟨s.data.map Char.toLower⟩

/-- Does the lower-cased key name the date role? -/
def isDateAlias (k : String) : Bool := dateAliases.contains (lowerStr k)

/-- Does the lower-cased key name the value role? -/
def isValueAlias (k : String) : Bool := valueAliases.contains (lowerStr k)

/-- Python falsiness of a key variable: `None` or the empty string. -/
def falsyKey : Option String → Bool
  | none => true
  | some s => s == ""

/-- Field inference over the first record's keys (lines 78–90): one pass
setting `date_key`/`value_key` on every alias hit (so the last hit wins),
then positional fallback to the first and second field. -/
def chooseKeys (keys : List String) : Option String × Option String :=
  let scan := keys.foldl
    (fun (acc : Option String × Option String) k =>
      (if isDateAlias k then some k else acc.1,
       if isValueAlias k then some k else acc.2))
    (none, none)
  (if falsyKey scan.1 && decide (1 ≤ keys.length) then keys[0]? else scan.1,
   if falsyKey scan.2 && decide (2 ≤ keys.length) then keys[1]? else scan.2)

/-- Expression `item.get(date_key) if date_key in item else None` (lines 95–96). -/
def maybeGet (kvs : List (String × Json)) : Option String → Json
  | some k => if hasKey kvs k then getKey kvs k else .null
  | none => .null

/-- One iteration of the row loop (lines 93–99): a record yields its two
chosen fields (`None` when absent); a non-dict element raises inside the
`try` and is silently skipped. -/
def extractRow (dk vk : Option String) : Json → Option (Json × Json)
  | .obj kvs => some (maybeGet kvs dk, maybeGet kvs vk)
  | _ => none

/-- The `rows` list built by lines 92–99. -/
def recordRows (dk vk : Option String) (items : List Json) : List (Json × Json) :=
  items.filterMap (extractRow dk vk)

/-- Coercion `pd.to_datetime(df['date'])` over the raw date column. -/
def coerceDates (rows : List (Json × Json)) : Except PyErr (List (Option Date × Json)) :=
  rows.mapM (fun r => (dateCell r.1).map (fun d => (d, r.2)))

/-- Coercion `df['value'].round().astype(int)` over the raw value column. -/
def coerceVals (rows : List (Option Date × Json)) : Except PyErr (List (Option Date × ℤ)) :=
  rows.mapM (fun r => (roundCell r.2).map (fun z => (r.1, z)))

/-- Can two raw cells be compared by Python `<`?  Strings compare with
strings, numbers with numbers and booleans; mixed kinds raise. -/
def rawComparable : Json → Json → Bool
  | .str _, .str _ => true
  | .num _, .num _ => true
  | .num _, .bool _ => true
  | .bool _, .num _ => true
  | .bool _, .bool _ => true
  | _, _ => false

/-- Python `<=` on two comparable raw cells. -/
def rawLeB : Json → Json → Bool
  | .str a, .str b => a ≤ b
  | .num a, .num b => a ≤ b
  | .num a, .bool b => a ≤ (if b then 1 else 0)
  | .bool a, .num b => (if a then 1 else 0 : ℚ) ≤ b
  | .bool a, .bool b => !a || b
  | _, _ => false

/-- Sorting `df.sort_values('date')` on an uncoerced object column: missing
values (`None`) go last without being compared; the rest sort by Python
`<`, which raises a `TypeError` on mixed kinds. -/
def rawSort (rows : List (Json × Json)) : Except PyErr (List (Json × Json)) :=
  let nonNull := rows.filter (fun r => !(r.1.isNull))
  let nulls := rows.filter (fun r => r.1.isNull)
  if nonNull.all (fun a => nonNull.all (fun b => rawComparable a.1 b.1)) then
    .ok (nonNull.mergeSort (fun a b => rawLeB a.1 b.1) ++ nulls)
  else
    .error .typeError

/-- The list-of-records case (lines 77–106): choose keys from the first
record, extract rows, attempt the bulk coercion inside `try` (a failure
leaves whatever was already coerced), then sort by the date column. -/
def parseRecords (items : List Json) (keys0 : List String) : Except PyErr Df :=
  let dk := (chooseKeys keys0).1
  let vk := (chooseKeys keys0).2
  let rows := recordRows dk vk items
  match coerceDates rows with
  | .error _ =>
    match rawSort rows with
    | .error e => .error e
    | .ok sorted => .ok (.raw sorted)
  | .ok rows1 =>
    match coerceVals rows1 with
    | .error _ => .ok (.halfTyped (sortHalf rows1))
    | .ok rows2 => .ok (.typed (sortRows rows2))

/-- The list-of-numbers rows (line 110):
`[(today + timedelta(days=i), round(preds[i])) for i in range(len(preds))]`. -/
def numbersRows (today : Date) (xs : List Json) : List (Option Date × ℤ) :=
  (List.range xs.length).map (fun i => (some (addDays today i), jsonRound0 (xs.getD i .null)))

/-- Dispatch over a list candidate (lines 76–115): records if the first
element is a dict, else synthesized dates when every element is a bare
number, else the unparseable-payload failure. -/
def listBranch (today : Date) (xs : List Json) : Except PyErr (Option Df × Json) :=
  match xs with
  | .obj kvs0 :: _ =>
    match parseRecords xs (kvs0.map Prod.fst) with
    | .error e => .error e
    | .ok df => .ok (some df, .null)
  | _ =>
    if xs.all isNumLike then
      .ok (some (.typed (numbersRows today xs)), .null)
    else
      .ok (none, .str "Unable to parse prediction payload")

/-- The normalizer `parse_predictions` (lines 58–115); `today` is `datetime.now().date()`
at the moment of the call.  The result pairs the optional DataFrame with
the error value of the Python return tuple. -/
def parse_predictions (today : Date) (payload : Json) : Except PyErr (Option Df × Json) :=
  if !payload.truthy || payload.hasErrorKey then
    .ok (none, payload.errValue)
  else
    match resolvePreds payload with
    | .error e => .error e
    | .ok preds =>
      match preds with
      | .obj kvs => mappingBranch kvs
      | .arr xs => listBranch today xs
      | _ => .ok (none, .str "Unable to parse prediction payload")

/-! ### Summary statistics (src/app.py lines 118–158)

`plot_predictions` short-circuits to a "No prediction data to plot"
warning when the frame is `None` or empty (line 119); otherwise it takes
`idxmax`/`idxmin` of the value column (lines 125–126) and reads off the
total, the extreme values and their dates (lines 154–158). -/

/-- The statistics panel. -/
structure Summary where
  total : ℤ
  maxV : ℤ
  maxD : Option Date
  minV : ℤ
  minD : Option Date
deriving DecidableEq, Repr

/-- Model of `Series.idxmax`: position of the first occurrence of the maximum. -/
def idxmax (l : List ℤ) : ℕ :=
  l.findIdx (fun v => some v == l.max?)

/-- Model of `Series.idxmin`: position of the first occurrence of the minimum. -/
def idxmin (l : List ℤ) : ℕ :=
  l.findIdx (fun v => some v == l.min?)

/-- The statistics of lines 125–126 and 154–158, `none` when the frame is
empty (line 119). -/
def summarize (rows : List (Option Date × ℤ)) : Option Summary :=
  if rows.isEmpty then none
  else
    let vals := rows.map Prod.snd
    let dates := rows.map Prod.fst
    let mi := idxmax vals
    let ni := idxmin vals
    some ⟨vals.sum, vals.getD mi 0, dates.getD mi none,
          vals.getD ni 0, dates.getD ni none⟩

/-- The guard of line 119 over the optional frame handed to
`plot_predictions`: `df is None or df.empty`. -/
def plot_summary (df : Option (List (Option Date × ℤ))) : Option Summary :=
  match df with
  | none => none
  | some rows => summarize rows

/-! ### The quick-range mapper (src/app.py lines 220–244) -/

/-- The mapper `map_quick_to_dates`: preset name and reference date to an inclusive
date range. -/
def map_quick_to_dates (today : Date) (option_str : String) : Date × Date :=
  if option_str == "Tomorrow" then
    (addDays today 1, addDays today 1)
  else if option_str == "Next 2 Days" then
    (addDays today 1, addDays today 2)
  else if option_str == "Next 7 Days" then
    (addDays today 1, addDays today 7)
  else if option_str == "This Week" then
    (today, addDays today (6 - weekday today))
  else if option_str == "This Month" then
    let next_month := addDays ⟨today.year, today.month, 28⟩ 4
    (⟨today.year, today.month, 1⟩, prevDay ⟨next_month.year, next_month.month, 1⟩)
  else if option_str == "Next 30 Days" then
    (today, addDays today 30)
  else
    (today, today)

/-- The six preset names offered by the selectbox (lines 199–206). -/
def quickPresets : List String :=
  ["Tomorrow", "Next 2 Days", "Next 7 Days", "This Week", "This Month", "Next 30 Days"]

/-! ## General lemmas -/

unseal List.merge List.mergeSort

theorem Date.leB_trans {a b c : Date} (h1 : a.leB b = true) (h2 : b.leB c = true) :
    a.leB c = true := by
  simp only [Date.leB, decide_eq_true_eq] at h1 h2 ⊢
  omega

theorem Date.leB_total (a b : Date) : (a.leB b || b.leB a) = true := by
  simp only [Date.leB, Bool.or_eq_true, decide_eq_true_eq]
  omega

theorem dleB_trans {a b c : Option Date} (h1 : dleB a b = true) (h2 : dleB b c = true) :
    dleB a c = true := by
  cases a <;> cases b <;> cases c <;> simp_all [dleB]
  exact Date.leB_trans h1 h2

theorem dleB_total (a b : Option Date) : (dleB a b || dleB b a) = true := by
  cases a with
  | none => cases b <;> rfl
  | some x =>
    cases b with
    | none => rfl
    | some y => exact Date.leB_total x y

theorem mapM_ok_of_forall {α β : Type} {f : α → Except PyErr β} {g : α → β} :
    ∀ {l : List α}, (∀ a ∈ l, f a = .ok (g a)) → l.mapM f = .ok (l.map g) := by
  intro l
  induction l with
  | nil => intro _; rfl
  | cons a l ih =>
    intro h
    rw [List.mapM_cons, h a (List.mem_cons_self a l),
      ih (fun x hx => h x (List.mem_cons_of_mem a hx))]
    rfl

theorem truthy_obj_of_ne_nil {kvs : List (String × Json)} (h : kvs ≠ []) :
    (Json.obj kvs).truthy = true := by
  cases kvs with
  | nil => exact absurd rfl h
  | cons p l => rfl

theorem truthy_arr_of_ne_nil {xs : List Json} (h : xs ≠ []) :
    (Json.arr xs).truthy = true := by
  cases xs with
  | nil => exact absurd rfl h
  | cons x l => rfl

/-- The value a single left-to-right pass of repeated assignment leaves
behind: the last element satisfying `p`, if any. -/
def lastMatch (p : String → Bool) : List String → Option String
  | [] => none
  | k :: ks =>
    match lastMatch p ks with
    | some r => some r
    | none => if p k then some k else none

theorem lastMatch_cons (p : String → Bool) (k : String) (ks : List String) :
    lastMatch p (k :: ks) = (lastMatch p ks).or (if p k then some k else none) := by
  rw [lastMatch]
  cases lastMatch p ks <;> rfl

theorem scan_eq_lastMatch (keys : List String) :
    ∀ acc : Option String × Option String,
      keys.foldl (fun (acc : Option String × Option String) k =>
          (if isDateAlias k then some k else acc.1,
           if isValueAlias k then some k else acc.2)) acc
        = ((lastMatch isDateAlias keys).or acc.1, (lastMatch isValueAlias keys).or acc.2) := by
  induction keys with
  | nil => intro acc; simp [lastMatch]
  | cons k ks ih =>
    intro acc
    rw [List.foldl_cons, ih]
    refine Prod.ext ?_ ?_
    · show (lastMatch isDateAlias ks).or _ = (lastMatch isDateAlias (k :: ks)).or acc.1
      rw [lastMatch_cons]
      cases lastMatch isDateAlias ks with
      | some r => simp
      | none =>
        by_cases hk : isDateAlias k <;> simp [hk]
    · show (lastMatch isValueAlias ks).or _ = (lastMatch isValueAlias (k :: ks)).or acc.2
      rw [lastMatch_cons]
      cases lastMatch isValueAlias ks with
      | some r => simp
      | none =>
        by_cases hk : isValueAlias k <;> simp [hk]

theorem lastMatch_mem {p : String → Bool} :
    ∀ {keys : List String} {k : String}, lastMatch p keys = some k → k ∈ keys ∧ p k = true := by
  intro keys
  induction keys with
  | nil => intro k h; cases h
  | cons a ks ih =>
    intro k h
    rw [lastMatch_cons] at h
    cases hD : lastMatch p ks with
    | some r =>
      rw [hD] at h
      cases h
      exact ⟨List.mem_cons_of_mem _ (ih hD).1, (ih hD).2⟩
    | none =>
      rw [hD, Option.none_or] at h
      by_cases hp : p a
      · rw [if_pos hp] at h
        cases h
        exact ⟨List.mem_cons_self _ _, hp⟩
      · rw [if_neg hp] at h
        cases h

theorem lastMatch_eq_none {p : String → Bool} :
    ∀ {keys : List String}, lastMatch p keys = none ↔ ∀ k ∈ keys, p k = false := by
  intro keys
  induction keys with
  | nil => simp [lastMatch]
  | cons a ks ih =>
    rw [lastMatch_cons]
    cases hD : lastMatch p ks with
    | some r =>
      simp only [Option.or_some]
      constructor
      · intro h; cases h
      · intro h
        have := (ih.mpr (fun k hk => h k (List.mem_cons_of_mem _ hk)))
        rw [hD] at this
        cases this
    | none =>
      simp only [Option.none_or]
      constructor
      · intro h
        intro k hk
        rcases List.mem_cons.mp hk with rfl | hk'
        · by_cases hp : p k
          · rw [if_pos hp] at h; cases h
          · simpa using hp
        · exact ih.mp hD k hk'
      · intro h
        rw [if_neg]
        simp only [h a (List.mem_cons_self _ _), Bool.false_eq_true, not_false_eq_true]

theorem lastMatch_eq_find_reverse (p : String → Bool) :
    ∀ keys : List String, lastMatch p keys = keys.reverse.find? p := by
  intro keys
  induction keys with
  | nil => rfl
  | cons k ks ih =>
    rw [lastMatch_cons, List.reverse_cons, List.find?_append, ih]
    congr 1
    by_cases hp : p k <;> simp [List.find?, hp]

theorem isDateAlias_empty : isDateAlias "" = false := rfl

theorem isValueAlias_empty : isValueAlias "" = false := rfl

theorem chooseKeys_fst_of_match {keys : List String} {k : String}
    (h : lastMatch isDateAlias keys = some k) : (chooseKeys keys).1 = some k := by
  have hk := (lastMatch_mem h).2
  have hne : (k == "") = false := by
    by_cases hk0 : k = ""
    · rw [hk0] at hk
      cases (isDateAlias_empty ▸ hk)
    · simp [hk0]
  simp only [chooseKeys, scan_eq_lastMatch, h, Option.or_none, falsyKey, hne,
    Bool.false_and, Bool.false_eq_true, if_false]

theorem chooseKeys_snd_of_match {keys : List String} {k : String}
    (h : lastMatch isValueAlias keys = some k) : (chooseKeys keys).2 = some k := by
  have hk := (lastMatch_mem h).2
  have hne : (k == "") = false := by
    by_cases hk0 : k = ""
    · rw [hk0] at hk
      cases (isValueAlias_empty ▸ hk)
    · simp [hk0]
  simp only [chooseKeys, scan_eq_lastMatch, h, Option.or_none, falsyKey, hne,
    Bool.false_and, Bool.false_eq_true, if_false]

theorem chooseKeys_fst_of_nomatch {keys : List String}
    (h : ∀ k ∈ keys, isDateAlias k = false) : (chooseKeys keys).1 = keys[0]? := by
  have h0 : lastMatch isDateAlias keys = none := lastMatch_eq_none.mpr h
  simp only [chooseKeys, scan_eq_lastMatch, h0, Option.none_or, falsyKey, Bool.true_and]
  by_cases hl : 1 ≤ keys.length
  · simp [hl]
  · have : keys = [] := by
      cases keys with
      | nil => rfl
      | cons a l => exact absurd (by simp) hl
    simp [this]

theorem chooseKeys_snd_of_nomatch {keys : List String}
    (h : ∀ k ∈ keys, isValueAlias k = false) : (chooseKeys keys).2 = keys[1]? := by
  have h0 : lastMatch isValueAlias keys = none := lastMatch_eq_none.mpr h
  simp only [chooseKeys, scan_eq_lastMatch, h0, Option.none_or, falsyKey, Bool.true_and]
  by_cases hl : 2 ≤ keys.length
  · simp [hl]
  · have hnone : keys[1]? = none := List.getElem?_eq_none (by omega)
    simp [hl, hnone]

/-! ## Claims about the normalizer -/

/-- Claim C1: a non-empty mapping payload with no `error` key and no
`data`/`predictions` envelope fields normalizes successfully to one
(date, value) point per entry — the key parsed as a calendar date and the
value rounded to an integer — and the resulting series is sorted
ascending by date. -/
theorem mapping_payload_spec (today : Date) (kvs : List (String × Json))
    (hne : kvs ≠ [])
    (herr : hasKey kvs "error" = false)
    (hdata : hasKey kvs "data" = false)
    (hpredk : hasKey kvs "predictions" = false)
    (hkeys : ∀ p ∈ kvs, (parseDate p.1).isSome = true)
    (hvals : ∀ p ∈ kvs, ∃ q : ℚ, p.2 = Json.num q) :
    ∃ rows : List (Option Date × ℤ),
      parse_predictions today (.obj kvs) = .ok (some (.typed rows), .null) ∧
      rows.length = kvs.length ∧
      rows.Perm (kvs.map (fun p => (parseDate p.1, jsonRound0 p.2))) ∧
      rows.Pairwise (fun a b => dleB a.1 b.1 = true) := by
  have htr : (Json.obj kvs).truthy = true := truthy_obj_of_ne_nil hne
  have hdates : kvs.mapM (fun p => strToDate p.1)
      = .ok (kvs.map (fun p => (parseDate p.1).getD ⟨1, 1, 1⟩)) := by
    apply mapM_ok_of_forall
    intro p hp
    obtain ⟨d, hd⟩ := Option.isSome_iff_exists.mp (hkeys p hp)
    simp [strToDate, hd]
  have hvs : kvs.mapM (fun p => roundCell p.2) = .ok (kvs.map (fun p => jsonRound0 p.2)) := by
    apply mapM_ok_of_forall
    intro p hp
    obtain ⟨q, hq⟩ := hvals p hp
    simp [roundCell, hq, jsonRound0]
  have hzip : (((kvs.map (fun p => (parseDate p.1).getD ⟨1, 1, 1⟩)).map some).zip
        (kvs.map (fun p => jsonRound0 p.2)))
      = kvs.map (fun p => (parseDate p.1, jsonRound0 p.2)) := by
    rw [List.map_map, List.zip_map']
    apply List.map_congr_left
    intro p hp
    obtain ⟨d, hd⟩ := Option.isSome_iff_exists.mp (hkeys p hp)
    simp [hd]
  refine ⟨sortRows (kvs.map (fun p => (parseDate p.1, jsonRound0 p.2))), ?_, ?_, ?_, ?_⟩
  · simp only [parse_predictions, htr, Json.hasErrorKey, herr, Bool.not_true,
      Bool.false_or, if_neg, resolvePreds, hdata, hpredk, Bool.false_eq_true,
      if_false, mappingBranch, hdates, hvs, hzip]
  · simp [sortRows, List.length_mergeSort]
  · exact List.mergeSort_perm _ _
  · simpa using @List.sorted_mergeSort (Option Date × ℤ) (fun a b => dleB a.1 b.1)
      (fun _ _ _ h1 h2 => dleB_trans h1 h2)
      (fun a b => dleB_total a.1 b.1)
      (kvs.map (fun p => (parseDate p.1, jsonRound0 p.2)))

/-- Concrete instance of `mapping_payload_spec`: the round-trip payload of
§8 of the spec. -/
theorem mapping_payload_spec_witness :
    ∃ rows : List (Option Date × ℤ),
      parse_predictions ⟨2024, 6, 1⟩
          (.obj [("2024-01-02", Json.num 5), ("2024-01-01", Json.num 10)])
        = .ok (some (.typed rows), .null) ∧
      rows.length = ([("2024-01-02", Json.num 5), ("2024-01-01", Json.num 10)]).length ∧
      rows.Perm (([("2024-01-02", Json.num 5), ("2024-01-01", Json.num 10)]).map
        (fun p => (parseDate p.1, jsonRound0 p.2))) ∧
      rows.Pairwise (fun a b => dleB a.1 b.1 = true) :=
  mapping_payload_spec ⟨2024, 6, 1⟩ _ (by simp) (by rfl) (by rfl) (by rfl)
    (by decide) (by intro p hp; fin_cases hp <;> exact ⟨_, rfl⟩)

/-- Claim C2: a non-empty list of bare numbers normalizes to one point
per element, dates synthesized consecutively from today (index `i` gets
`today + i` days) and values rounded. -/
theorem numbers_payload_spec (today : Date) (xs : List Json) (hne : xs ≠ [])
    (hnum : ∀ x ∈ xs, ∃ q : ℚ, x = Json.num q) :
    ∃ rows : List (Option Date × ℤ),
      parse_predictions today (.arr xs) = .ok (some (.typed rows), .null) ∧
      rows.length = xs.length ∧
      ∀ i, i < xs.length → ∃ q : ℚ,
        xs.getD i .null = Json.num q ∧
        rows.getD i (none, 0) = (some (addDays today i), pyRound q) := by
  have hall : xs.all isNumLike = true := by
    rw [List.all_eq_true]
    intro x hx
    obtain ⟨q, rfl⟩ := hnum x hx
    rfl
  have hpath : parse_predictions today (.arr xs)
      = .ok (some (.typed (numbersRows today xs)), .null) := by
    have htr := truthy_arr_of_ne_nil hne
    cases xs with
    | nil => exact absurd rfl hne
    | cons x xs' =>
      obtain ⟨q, rfl⟩ := hnum x (List.mem_cons_self _ _)
      simp [parse_predictions, htr, Json.hasErrorKey, resolvePreds, listBranch, hall]
  refine ⟨numbersRows today xs, hpath, by simp [numbersRows], ?_⟩
  intro i hi
  have hr : i < (numbersRows today xs).length := by simpa [numbersRows] using hi
  obtain ⟨q, hq⟩ := hnum (xs.get ⟨i, hi⟩) (xs.get_mem i hi)
  refine ⟨q, ?_, ?_⟩
  · rw [List.getD_eq_getElem?_getD, List.getElem?_eq_getElem hi]
    simpa using hq
  · rw [List.getD_eq_getElem?_getD, List.getElem?_eq_getElem hr]
    simp only [numbersRows, List.getElem_map, List.getElem_range, Option.getD_some]
    rw [List.getD_eq_getElem?_getD, List.getElem?_eq_getElem hi]
    have : xs[i] = Json.num q := by simpa using hq
    simp [this, jsonRound0]

/-- Concrete instance of `numbers_payload_spec`: the payload `[1.2, 7]`. -/
theorem numbers_payload_spec_witness :
    ∃ rows : List (Option Date × ℤ),
      parse_predictions ⟨2024, 6, 1⟩ (.arr [.num (mkRat 6 5), .num 7])
        = .ok (some (.typed rows), .null) ∧
      rows.length = ([Json.num (mkRat 6 5), Json.num 7]).length ∧
      ∀ i, i < ([Json.num (mkRat 6 5), Json.num 7]).length → ∃ q : ℚ,
        ([Json.num (mkRat 6 5), Json.num 7]).getD i .null = Json.num q ∧
        rows.getD i (none, 0) = (some (addDays ⟨2024, 6, 1⟩ i), pyRound q) :=
  numbers_payload_spec ⟨2024, 6, 1⟩ _ (by simp)
    (by intro x hx; fin_cases hx <;> exact ⟨_, rfl⟩)

theorem recordRows_all_objs (dk vk : Option String) :
    ∀ ls : List (List (String × Json)),
      recordRows dk vk (ls.map Json.obj)
        = ls.map (fun kvs => (maybeGet kvs dk, maybeGet kvs vk)) := by
  intro ls
  induction ls with
  | nil => rfl
  | cons kvs ls ih =>
    simp only [List.map_cons, recordRows, List.filterMap_cons, extractRow]
    rw [show (List.filterMap (extractRow dk vk) (ls.map Json.obj))
        = ls.map (fun kvs => (maybeGet kvs dk, maybeGet kvs vk)) from ih]

/-- Claim C3: the date and value fields are inferred from the first
record by case-insensitive alias matching (date: `date`/`ds`/`day`;
value: `value`/`y`/`tickets`/`count`/`volume`), with positional fallback
to the first and second field when no alias matches; on
`[{"ds": "2024-01-01", "y": 3.7}]` it picks `ds`/`y` and rounds the value
to 4. -/
theorem alias_inference_spec :
    (∀ keys : List String,
      ((∃ k ∈ keys, isDateAlias k = true) →
        ∃ k, (chooseKeys keys).1 = some k ∧ k ∈ keys ∧ isDateAlias k = true) ∧
      ((∀ k ∈ keys, isDateAlias k = false) → (chooseKeys keys).1 = keys[0]?) ∧
      ((∃ k ∈ keys, isValueAlias k = true) →
        ∃ k, (chooseKeys keys).2 = some k ∧ k ∈ keys ∧ isValueAlias k = true) ∧
      ((∀ k ∈ keys, isValueAlias k = false) → (chooseKeys keys).2 = keys[1]?)) ∧
    chooseKeys ["ds", "y"] = (some "ds", some "y") ∧
    (∀ today : Date,
      parse_predictions today
          (.arr [.obj [("ds", .str "2024-01-01"), ("y", .num (mkRat 37 10))]])
        = .ok (some (.typed [(some ⟨2024, 1, 1⟩, 4)]), .null)) := by
  refine ⟨?_, by rfl, by intro _; rfl⟩
  intro keys
  refine ⟨?_, chooseKeys_fst_of_nomatch, ?_, chooseKeys_snd_of_nomatch⟩
  · rintro ⟨k0, hk0, hp0⟩
    cases hLM : lastMatch isDateAlias keys with
    | none => exact absurd (lastMatch_eq_none.mp hLM k0 hk0) (by simp [hp0])
    | some k =>
      exact ⟨k, chooseKeys_fst_of_match hLM, (lastMatch_mem hLM).1, (lastMatch_mem hLM).2⟩
  · rintro ⟨k0, hk0, hp0⟩
    cases hLM : lastMatch isValueAlias keys with
    | none => exact absurd (lastMatch_eq_none.mp hLM k0 hk0) (by simp [hp0])
    | some k =>
      exact ⟨k, chooseKeys_snd_of_match hLM, (lastMatch_mem hLM).1, (lastMatch_mem hLM).2⟩

/-- Concrete instances of `alias_inference_spec`: an alias hit, a
positional fallback, and the worked example of the claim. -/
theorem alias_inference_spec_witness :
    (∃ k, (chooseKeys ["ds", "y"]).1 = some k ∧ k ∈ ["ds", "y"] ∧ isDateAlias k = true) ∧
    (chooseKeys ["a", "b"]).1 = (["a", "b"])[0]? ∧
    parse_predictions ⟨2024, 6, 1⟩
        (.arr [.obj [("ds", .str "2024-01-01"), ("y", .num (mkRat 37 10))]])
      = .ok (some (.typed [(some ⟨2024, 1, 1⟩, 4)]), .null) :=
  ⟨(alias_inference_spec.1 ["ds", "y"]).1 ⟨"ds", by simp, rfl⟩,
   (alias_inference_spec.1 ["a", "b"]).2.1 (by decide),
   alias_inference_spec.2.2 ⟨2024, 6, 1⟩⟩

/-- Claim C10: field inference reads only the first record's keys — on
several alias hits the key occurring last in iteration order wins — the
same two keys are then applied to every record, and a record lacking a
chosen key still yields a row with a null in that position. -/
theorem record_keys_from_first_spec :
    (∀ keys : List String, (∃ k ∈ keys, isDateAlias k = true) →
      (chooseKeys keys).1 = keys.reverse.find? isDateAlias) ∧
    (∀ keys : List String, (∃ k ∈ keys, isValueAlias k = true) →
      (chooseKeys keys).2 = keys.reverse.find? isValueAlias) ∧
    (∀ (kvs0 : List (String × Json)) (recs : List (List (String × Json))),
      recordRows (chooseKeys (kvs0.map Prod.fst)).1 (chooseKeys (kvs0.map Prod.fst)).2
          (Json.obj kvs0 :: recs.map Json.obj)
        = (kvs0 :: recs).map (fun kvs =>
            (maybeGet kvs (chooseKeys (kvs0.map Prod.fst)).1,
             maybeGet kvs (chooseKeys (kvs0.map Prod.fst)).2))) ∧
    (∀ (kvs : List (String × Json)) (k : String),
      hasKey kvs k = false → maybeGet kvs (some k) = Json.null) := by
  refine ⟨?_, ?_, ?_, ?_⟩
  · rintro keys ⟨k0, hk0, hp0⟩
    cases hLM : lastMatch isDateAlias keys with
    | none => exact absurd (lastMatch_eq_none.mp hLM k0 hk0) (by simp [hp0])
    | some k => rw [chooseKeys_fst_of_match hLM, ← lastMatch_eq_find_reverse, hLM]
  · rintro keys ⟨k0, hk0, hp0⟩
    cases hLM : lastMatch isValueAlias keys with
    | none => exact absurd (lastMatch_eq_none.mp hLM k0 hk0) (by simp [hp0])
    | some k => rw [chooseKeys_snd_of_match hLM, ← lastMatch_eq_find_reverse, hLM]
  · intro kvs0 recs
    simp only [recordRows, List.filterMap_cons, extractRow, List.map_cons]
    rw [show (List.filterMap (extractRow (chooseKeys (kvs0.map Prod.fst)).1
          (chooseKeys (kvs0.map Prod.fst)).2) (recs.map Json.obj))
        = recs.map (fun kvs => (maybeGet kvs (chooseKeys (kvs0.map Prod.fst)).1,
            maybeGet kvs (chooseKeys (kvs0.map Prod.fst)).2))
      from recordRows_all_objs _ _ recs]
  · intro kvs k h
    simp [maybeGet, h]

/-- Concrete instances of `record_keys_from_first_spec`: a duplicate
alias hit resolved to the later field, key reuse across records, and a
missing chosen key turning into a null cell. -/
theorem record_keys_from_first_spec_witness :
    (chooseKeys ["Date", "ds"]).1 = (["Date", "ds"]).reverse.find? isDateAlias ∧
    (chooseKeys ["y", "count"]).2 = (["y", "count"]).reverse.find? isValueAlias ∧
    recordRows (chooseKeys (([("ds", Json.str "2024-01-01"), ("y", Json.num 3)]).map Prod.fst)).1
        (chooseKeys (([("ds", Json.str "2024-01-01"), ("y", Json.num 3)]).map Prod.fst)).2
        (Json.obj [("ds", Json.str "2024-01-01"), ("y", Json.num 3)]
          :: ([[("y", Json.num 5)]]).map Json.obj)
      = ([("ds", Json.str "2024-01-01"), ("y", Json.num 3)] :: [[("y", Json.num 5)]]).map
          (fun kvs =>
            (maybeGet kvs (chooseKeys (([("ds", Json.str "2024-01-01"),
                ("y", Json.num 3)]).map Prod.fst)).1,
             maybeGet kvs (chooseKeys (([("ds", Json.str "2024-01-01"),
                ("y", Json.num 3)]).map Prod.fst)).2)) ∧
    maybeGet [("a", Json.num 1)] (some "ds") = Json.null :=
  ⟨record_keys_from_first_spec.1 ["Date", "ds"] ⟨"ds", by simp, rfl⟩,
   record_keys_from_first_spec.2.1 ["y", "count"] ⟨"y", by simp, rfl⟩,
   record_keys_from_first_spec.2.2.1 [("ds", Json.str "2024-01-01"), ("y", Json.num 3)]
     [[("y", Json.num 5)]],
   record_keys_from_first_spec.2.2.2 [("a", Json.num 1)] "ds" (by rfl)⟩

theorem getD_eq_get {α : Type} (d : α) {l : List α} {i : ℕ} (h : i < l.length) :
    l.getD i d = l.get ⟨i, h⟩ := by
  rw [List.getD_eq_getElem?_getD, List.getElem?_eq_getElem h]
  simp

theorem idxmax_spec {l : List ℤ} (hne : l ≠ []) :
    idxmax l < l.length ∧
    (∀ j, j < l.length → l.getD j 0 ≤ l.getD (idxmax l) 0) ∧
    (∀ j, j < idxmax l → l.getD j 0 < l.getD (idxmax l) 0) := by
  obtain ⟨m, hm⟩ : ∃ m, l.max? = some m := by
    cases l with
    | nil => exact absurd rfl hne
    | cons x xs => exact ⟨_, rfl⟩
  have hmem : m ∈ l := List.max?_mem max_choice hm
  have hub : ∀ b ∈ l, b ≤ m := (List.max?_le_iff (fun _ _ _ => max_le_iff) hm).mp le_rfl
  have hex : ∃ x ∈ l, (some x == l.max?) = true := ⟨m, hmem, by simp [hm]⟩
  have hlt : idxmax l < l.length := List.findIdx_lt_length_of_exists hex
  have hat : l.get ⟨idxmax l, hlt⟩ = m := by
    have h0 := @List.findIdx_getElem _ (fun v => some v == l.max?) l hlt
    have h1 : (some (l.get ⟨idxmax l, hlt⟩) == l.max?) = true := h0
    rw [hm] at h1
    exact Option.some_inj.mp (beq_iff_eq.mp h1)
  refine ⟨hlt, ?_, ?_⟩
  · intro j hj
    rw [getD_eq_get 0 hj, getD_eq_get 0 hlt, hat]
    exact hub _ (l.get_mem j hj)
  · intro j hj
    have hjl : j < l.length := lt_trans hj hlt
    have hne' : l.get ⟨j, hjl⟩ ≠ m := by
      intro heq
      have h2 := @List.not_of_lt_findIdx _ (fun v => some v == l.max?) l j hj
      have h2' : (some (l.get ⟨j, hjl⟩) == l.max?) = false := h2
      rw [heq, hm] at h2'
      simp at h2'
    rw [getD_eq_get 0 hjl, getD_eq_get 0 hlt, hat]
    exact lt_of_le_of_ne (hub _ (l.get_mem j hjl)) hne'

theorem idxmin_spec {l : List ℤ} (hne : l ≠ []) :
    idxmin l < l.length ∧
    (∀ j, j < l.length → l.getD (idxmin l) 0 ≤ l.getD j 0) ∧
    (∀ j, j < idxmin l → l.getD (idxmin l) 0 < l.getD j 0) := by
  obtain ⟨m, hm⟩ : ∃ m, l.min? = some m := by
    cases l with
    | nil => exact absurd rfl hne
    | cons x xs => exact ⟨_, rfl⟩
  have hmem : m ∈ l := List.min?_mem min_choice hm
  have hlb : ∀ b ∈ l, m ≤ b := (List.le_min?_iff (fun _ _ _ => le_min_iff) hm).mp le_rfl
  have hex : ∃ x ∈ l, (some x == l.min?) = true := ⟨m, hmem, by simp [hm]⟩
  have hlt : idxmin l < l.length := List.findIdx_lt_length_of_exists hex
  have hat : l.get ⟨idxmin l, hlt⟩ = m := by
    have h0 := @List.findIdx_getElem _ (fun v => some v == l.min?) l hlt
    have h1 : (some (l.get ⟨idxmin l, hlt⟩) == l.min?) = true := h0
    rw [hm] at h1
    exact Option.some_inj.mp (beq_iff_eq.mp h1)
  refine ⟨hlt, ?_, ?_⟩
  · intro j hj
    rw [getD_eq_get 0 hj, getD_eq_get 0 hlt, hat]
    exact hlb _ (l.get_mem j hj)
  · intro j hj
    have hjl : j < l.length := lt_trans hj hlt
    have hne' : l.get ⟨j, hjl⟩ ≠ m := by
      intro heq
      have h2 := @List.not_of_lt_findIdx _ (fun v => some v == l.min?) l j hj
      have h2' : (some (l.get ⟨j, hjl⟩) == l.min?) = false := h2
      rw [heq, hm] at h2'
      simp at h2'
    rw [getD_eq_get 0 hjl, getD_eq_get 0 hlt, hat]
    exact lt_of_le_of_ne (hlb _ (l.get_mem j hjl)) (Ne.symm hne')

theorem getD_pair (rows : List (Option Date × ℤ)) {i : ℕ} (h : i < rows.length) :
    rows.getD i (none, 0)
      = ((rows.map Prod.fst).getD i none, (rows.map Prod.snd).getD i 0) := by
  have h1 : i < (rows.map Prod.fst).length := by simpa using h
  have h2 : i < (rows.map Prod.snd).length := by simpa using h
  rw [getD_eq_get _ h, getD_eq_get _ h1, getD_eq_get _ h2]
  simp

/-- Claim C4: the summary short-circuits to the no-data state exactly on
a missing or empty series; on a non-empty series the total is the sum of
the values, the max is the (value, date) pair at the first index
achieving the maximum value (ties to the earliest position in the
date-sorted frame), the min symmetrically, and both extreme dates are
dates of the series. -/
theorem summary_spec :
    (∀ df : Option (List (Option Date × ℤ)),
      plot_summary df = none ↔ (df = none ∨ df = some [])) ∧
    (∀ rows : List (Option Date × ℤ), summarize rows = none ↔ rows = []) ∧
    (∀ (rows : List (Option Date × ℤ)) (s : Summary), summarize rows = some s →
      s.total = (rows.map Prod.snd).sum ∧
      (∃ i, i < rows.length ∧
        rows.getD i (none, 0) = (s.maxD, s.maxV) ∧
        (∀ j, j < rows.length → (rows.getD j (none, 0)).2 ≤ s.maxV) ∧
        (∀ j, j < i → (rows.getD j (none, 0)).2 < s.maxV)) ∧
      (∃ i, i < rows.length ∧
        rows.getD i (none, 0) = (s.minD, s.minV) ∧
        (∀ j, j < rows.length → s.minV ≤ (rows.getD j (none, 0)).2) ∧
        (∀ j, j < i → s.minV < (rows.getD j (none, 0)).2)) ∧
      s.maxD ∈ rows.map Prod.fst ∧ s.minD ∈ rows.map Prod.fst) := by
  have hnone : ∀ rows : List (Option Date × ℤ), summarize rows = none ↔ rows = [] := by
    intro rows
    cases rows with
    | nil => simp [summarize]
    | cons r rs => simp [summarize]
  refine ⟨?_, hnone, ?_⟩
  · intro df
    cases df with
    | none => simp [plot_summary]
    | some rows => simpa [plot_summary] using hnone rows
  · intro rows s hs
    have hne : rows ≠ [] := by
      intro h
      rw [(hnone rows).mpr h] at hs
      cases hs
    have hemp : rows.isEmpty = false := by
      cases rows with
      | nil => exact absurd rfl hne
      | cons r rs => rfl
    simp only [summarize, hemp, Bool.false_eq_true, if_false] at hs
    obtain rfl := (Option.some_inj.mp hs).symm
    have hvne : rows.map Prod.snd ≠ [] := by
      cases rows with
      | nil => exact absurd rfl hne
      | cons r rs => simp
    obtain ⟨hltx, hubx, hstx⟩ := idxmax_spec hvne
    obtain ⟨hltn, hlbn, hstn⟩ := idxmin_spec hvne
    have hlen : (rows.map Prod.snd).length = rows.length := List.length_map _ _
    have hltx' : idxmax (rows.map Prod.snd) < rows.length := hlen ▸ hltx
    have hltn' : idxmin (rows.map Prod.snd) < rows.length := hlen ▸ hltn
    refine ⟨rfl, ⟨idxmax (rows.map Prod.snd), hltx', ?_, ?_, ?_⟩,
      ⟨idxmin (rows.map Prod.snd), hltn', ?_, ?_, ?_⟩, ?_, ?_⟩
    · rw [getD_pair rows hltx']
    · intro j hj
      rw [getD_pair rows hj]
      exact hubx j (hlen ▸ hj)
    · intro j hj
      rw [getD_pair rows (lt_trans hj hltx')]
      exact hstx j hj
    · rw [getD_pair rows hltn']
    · intro j hj
      rw [getD_pair rows hj]
      exact hlbn j (hlen ▸ hj)
    · intro j hj
      rw [getD_pair rows (lt_trans hj hltn')]
      exact hstn j hj
    · have h1 : idxmax (rows.map Prod.snd) < (rows.map Prod.fst).length := by
        simpa using hltx'
      rw [getD_eq_get _ h1]
      exact (rows.map Prod.fst).get_mem _ h1
    · have h1 : idxmin (rows.map Prod.snd) < (rows.map Prod.fst).length := by
        simpa using hltn'
      rw [getD_eq_get _ h1]
      exact (rows.map Prod.fst).get_mem _ h1

/-- Concrete instance of `summary_spec` on the two-point series of the
spec round-trip example. -/
theorem summary_spec_witness :
    (plot_summary (some []) = none ↔ (some ([] : List (Option Date × ℤ)) = none ∨
      some ([] : List (Option Date × ℤ)) = some [])) ∧
    summarize [(some ⟨2024, 1, 1⟩, (10 : ℤ)), (some ⟨2024, 1, 2⟩, 5)]
      = some ⟨15, 10, some ⟨2024, 1, 1⟩, 5, some ⟨2024, 1, 2⟩⟩ ∧
    (⟨15, 10, some ⟨2024, 1, 1⟩, 5, some ⟨2024, 1, 2⟩⟩ : Summary).total
      = ((([(some ⟨2024, 1, 1⟩, (10 : ℤ)), (some ⟨2024, 1, 2⟩, 5)])
          : List (Option Date × ℤ)).map Prod.snd).sum :=
  have hs : summarize ([(some ⟨2024, 1, 1⟩, (10 : ℤ)), (some ⟨2024, 1, 2⟩, 5)]
        : List (Option Date × ℤ))
      = some (⟨15, 10, some ⟨2024, 1, 1⟩, 5, some ⟨2024, 1, 2⟩⟩ : Summary) := rfl
  ⟨summary_spec.1 (some []), hs, (summary_spec.2.2 _ _ hs).1⟩

/-- Claim C5 counterexample: the empty dict (a falsy payload
without an `error` key), yet the returned message is Python `None`
(`payload.get('error')` on a dict), not the generic "No data" string the
claim promises. -/
theorem error_branch_counterexample :
    parse_predictions ⟨2024, 6, 1⟩ (.obj []) = .ok (none, .null) ∧
    Json.null ≠ Json.str "No data" :=
  ⟨rfl, by simp⟩

/-- Claim C5 (amended): on an empty/null payload or a dict with an
`error` key, parsing fails with no series; the message is the dict's
`error` value when the payload is a dict (Python `None` when the key is
absent, as for the empty dict) and the generic "No data" string only when
the payload is not a dict; an error field holding "timeout" yields "timeout". -/
theorem error_branch_spec (today : Date) (payload : Json)
    (h : payload.truthy = false ∨ payload.hasErrorKey = true) :
    (∀ kvs, payload = .obj kvs →
      parse_predictions today payload = .ok (none, getKey kvs "error")) ∧
    (payload.isObj = false →
      parse_predictions today payload = .ok (none, .str "No data")) ∧
    parse_predictions today (.obj [("error", .str "timeout")]) = .ok (none, .str "timeout") := by
  have hcond : (!payload.truthy || payload.hasErrorKey) = true := by
    rcases h with h | h
    · simp [h]
    · simp [h]
  have hout : parse_predictions today payload = .ok (none, payload.errValue) := by
    simp [parse_predictions, hcond]
  refine ⟨?_, ?_, rfl⟩
  · rintro kvs rfl
    exact hout
  · intro hobj
    rw [hout]
    cases payload <;> simp_all [Json.errValue, Json.isObj]

/-- Concrete instance of `error_branch_spec` at the payload whose error
field holds "timeout". -/
theorem error_branch_spec_witness :
    (Json.obj [("error", Json.str "timeout")]).hasErrorKey = true ∧
    ((∀ kvs, (Json.obj [("error", Json.str "timeout")] : Json) = .obj kvs →
      parse_predictions ⟨2024, 6, 1⟩ (.obj [("error", .str "timeout")])
        = .ok (none, getKey kvs "error")) ∧
    ((Json.obj [("error", Json.str "timeout")]).isObj = false →
      parse_predictions ⟨2024, 6, 1⟩ (.obj [("error", .str "timeout")])
        = .ok (none, .str "No data")) ∧
    parse_predictions ⟨2024, 6, 1⟩ (.obj [("error", .str "timeout")])
      = .ok (none, .str "timeout")) :=
  ⟨rfl, error_branch_spec ⟨2024, 6, 1⟩ (.obj [("error", .str "timeout")]) (Or.inr rfl)⟩

/-- Claim C6 counterexample: the empty list is caught by the emptiness
check of line 59 and fails with "No data", not with the
"Unable to parse prediction payload" message the claim asserts. -/
theorem empty_list_counterexample :
    parse_predictions ⟨2024, 6, 1⟩ (.arr []) = .ok (none, .str "No data") ∧
    Json.str "No data" ≠ Json.str "Unable to parse prediction payload" :=
  ⟨rfl, by simp⟩

/-- Claim C6 (amended): the empty-list payload is falsy, so it fails with
the generic "No data" message before shape dispatch is reached; payloads
that do reach shape dispatch and match no shape — a non-empty string, or
a non-empty list of unsupported elements — fail with the
UnparseablePayload message. -/
theorem empty_list_spec (today : Date) :
    parse_predictions today (.arr []) = .ok (none, .str "No data") ∧
    (∀ s : String, s ≠ "" →
      parse_predictions today (.str s)
        = .ok (none, .str "Unable to parse prediction payload")) ∧
    (∀ xs : List Json, xs ≠ [] → (∀ x ∈ xs, x = Json.null) →
      parse_predictions today (.arr xs)
        = .ok (none, .str "Unable to parse prediction payload")) := by
  refine ⟨rfl, ?_, ?_⟩
  · intro s hs
    have ht : (Json.str s).truthy = true := by simp [Json.truthy, hs]
    simp [parse_predictions, ht, Json.hasErrorKey, resolvePreds]
  · intro xs hxs hnull
    have ht : (Json.arr xs).truthy = true := truthy_arr_of_ne_nil hxs
    cases xs with
    | nil => exact absurd rfl hxs
    | cons x xs' =>
      have hx := hnull x (List.mem_cons_self _ _)
      subst hx
      have hall : (Json.null :: xs').all isNumLike = false := by
        simp [isNumLike]
      simp [parse_predictions, ht, Json.hasErrorKey, resolvePreds, listBranch, hall]

/-- Concrete instances of `empty_list_spec`: the empty list, a string
payload, and a list of nulls. -/
theorem empty_list_spec_witness :
    parse_predictions ⟨2024, 6, 1⟩ (.arr []) = .ok (none, .str "No data") ∧
    ("boom" ≠ "" ∧ parse_predictions ⟨2024, 6, 1⟩ (.str "boom")
      = .ok (none, .str "Unable to parse prediction payload")) ∧
    ([Json.null] ≠ ([] : List Json) ∧ parse_predictions ⟨2024, 6, 1⟩ (.arr [Json.null])
      = .ok (none, .str "Unable to parse prediction payload")) :=
  ⟨(empty_list_spec ⟨2024, 6, 1⟩).1,
   ⟨by simp, (empty_list_spec ⟨2024, 6, 1⟩).2.1 "boom" (by simp)⟩,
   ⟨by simp, (empty_list_spec ⟨2024, 6, 1⟩).2.2 [Json.null] (by simp)
      (by intro x hx; simpa using hx)⟩⟩

/-- Claim C7: the spec's propagation policy says every error is converted
to a message, but the membership test of line 63 raises an uncaught
`TypeError` when the `data` field holds a non-container value such as 5 —
the payload of the claim's own example crashes `parse_predictions`. -/
theorem parse_raises_on_scalar_data :
    parse_predictions ⟨2024, 6, 1⟩ (.obj [("data", .num 5)]) = .error .typeError :=
  rfl

theorem addDays_four (dt : Date) :
    addDays dt 4 = nextDay (nextDay (nextDay (nextDay dt))) :=
  rfl

set_option maxHeartbeats 1600000 in
/-- Claim C8: on any valid reference date the quick-range mapper realizes
the spec's table — Tomorrow, Next 2 Days, Next 7 Days, Next 30 Days by
day offsets, This Week ending on Sunday (Monday = 0 indexing), and This
Month spanning the first to the last day of the current month; for
2024-06-12 (a Wednesday) "This Week" gives 2024-06-12 … 2024-06-16. -/
theorem quick_preset_table_spec (today : Date) (h : today.valid = true) :
    map_quick_to_dates today "Tomorrow" = (addDays today 1, addDays today 1) ∧
    map_quick_to_dates today "Next 2 Days" = (addDays today 1, addDays today 2) ∧
    map_quick_to_dates today "Next 7 Days" = (addDays today 1, addDays today 7) ∧
    map_quick_to_dates today "This Week" = (today, addDays today (6 - weekday today)) ∧
    map_quick_to_dates today "This Month"
      = (⟨today.year, today.month, 1⟩,
         ⟨today.year, today.month, monthLength today.year today.month⟩) ∧
    map_quick_to_dates today "Next 30 Days" = (today, addDays today 30) ∧
    map_quick_to_dates ⟨2024, 6, 12⟩ "This Week" = (⟨2024, 6, 12⟩, ⟨2024, 6, 16⟩) := by
  obtain ⟨y, m, d⟩ := today
  simp only [Date.valid, Bool.and_eq_true, decide_eq_true_eq] at h
  have hm1 : 1 ≤ m := h.1.1.1.2
  have hm2 : m ≤ 12 := h.1.1.2
  clear h
  refine ⟨rfl, rfl, rfl, rfl, ?_, rfl, rfl⟩
  have hbranch : ∀ t : Date, map_quick_to_dates t "This Month"
      = (⟨t.year, t.month, 1⟩,
         prevDay ⟨(addDays ⟨t.year, t.month, 28⟩ 4).year,
                  (addDays ⟨t.year, t.month, 28⟩ 4).month, 1⟩) :=
    fun _ => rfl
  rw [hbranch ⟨y, m, d⟩]
  interval_cases m
  · rfl
  · cases hL : isLeap y
    · have hml : monthLength y 2 = 28 := by simp [monthLength, hL]
      have hadd : addDays ⟨y, 2, 28⟩ 4 = ⟨y, 3, 4⟩ := by
        rw [addDays_four]
        have s1 : nextDay ⟨y, 2, 28⟩ = ⟨y, 3, 1⟩ := by
          simp only [nextDay, hml]
          norm_num
        rw [s1]
        rfl
      rw [hadd]
      rfl
    · have hml : monthLength y 2 = 29 := by simp [monthLength, hL]
      have hadd : addDays ⟨y, 2, 28⟩ 4 = ⟨y, 3, 3⟩ := by
        rw [addDays_four]
        have s1 : nextDay ⟨y, 2, 28⟩ = ⟨y, 2, 29⟩ := by
          simp only [nextDay, hml]
          norm_num
        have s2 : nextDay ⟨y, 2, 29⟩ = ⟨y, 3, 1⟩ := by
          simp only [nextDay, hml]
          norm_num
        rw [s1, s2]
        rfl
      rw [hadd]
      rfl
  · rfl
  · rfl
  · rfl
  · rfl
  · rfl
  · rfl
  · rfl
  · rfl
  · rfl
  · rfl

/-- Concrete instance of `quick_preset_table_spec` at 2024-06-12. -/
theorem quick_preset_table_spec_witness :
    (Date.mk 2024 6 12).valid = true ∧
    map_quick_to_dates ⟨2024, 6, 12⟩ "This Month"
      = (⟨2024, 6, 1⟩, ⟨2024, 6, monthLength 2024 6⟩) ∧
    map_quick_to_dates ⟨2024, 6, 12⟩ "This Week" = (⟨2024, 6, 12⟩, ⟨2024, 6, 16⟩) :=
  ⟨rfl, (quick_preset_table_spec ⟨2024, 6, 12⟩ rfl).2.2.2.2.1,
   (quick_preset_table_spec ⟨2024, 6, 12⟩ rfl).2.2.2.2.2.2⟩

/-- Claim C9 counterexample: an unknown preset name does not fail — the
mapper's final `else` returns the degenerate range (today, today). -/
theorem unknown_preset_counterexample :
    map_quick_to_dates ⟨2024, 6, 12⟩ "Whatever" = (⟨2024, 6, 12⟩, ⟨2024, 6, 12⟩) ∧
    "Whatever" ∉ quickPresets :=
  ⟨rfl, by decide⟩

/-- Claim C9 (amended): for every preset name outside the six enumerated
presets the mapper silently returns the range (today, today) instead of
failing with an InvalidPreset error. -/
theorem unknown_preset_spec (today : Date) (name : String) (h : name ∉ quickPresets) :
    map_quick_to_dates today name = (today, today) := by
  simp only [quickPresets, List.mem_cons, List.not_mem_nil, or_false, not_or] at h
  obtain ⟨h1, h2, h3, h4, h5, h6⟩ := h
  simp [map_quick_to_dates, h1, h2, h3, h4, h5, h6]

/-- Concrete instance of `unknown_preset_spec` at the name "Whatever". -/
theorem unknown_preset_spec_witness :
    "Whatever" ∉ quickPresets ∧
    map_quick_to_dates ⟨2024, 6, 12⟩ "Whatever" = (⟨2024, 6, 12⟩, ⟨2024, 6, 12⟩) :=
  ⟨by decide, unknown_preset_spec ⟨2024, 6, 12⟩ "Whatever" (by decide)⟩

end TicketsUI
